import Mathlib

/-!
Verification of the Cymbal Cyber security-triage agent
(`bigquery_agent_app`: `tools.py`, `agent.py`, `implicit_session_service.py`,
`remote_adapter.py`) against its natural-language specification.

The Python code is shallowly embedded: pure functions become Lean functions,
the GCS blob store and the BigQuery audit table become explicit state
(association list / row list), the `json.loads` capability is a parameter
`parse : String → Option Jso` (`none` models a raised `JSONDecodeError`),
and the human reviewer is an oracle `human : Nat → Option String` giving the
content written at the response path before poll iteration `i`, if any.
-/

/-- Model of a Python value produced by `json.loads`: JSON strings, integers,
booleans, objects, arrays, and `null` (Python `None`). -/
inductive Jso where
  | null : Jso
  | s (v : String) : Jso
  | i (v : Int) : Jso
  | b (v : Bool) : Jso
  | obj (fields : List (String × Jso)) : Jso
  | arr (items : List Jso) : Jso

/-- Python truthiness of a JSON-derived value (`if x:`). -/
def pyTruthy : Jso → Bool
  | Jso.null => false
  | Jso.s v => v != ""
  | Jso.i n => n != 0
  | Jso.b v => v
  | Jso.obj fs => !fs.isEmpty
  | Jso.arr xs => !xs.isEmpty

/-- Rendering of a value in a Python f-string (only the cases the code hits). -/
def pyStr : Jso → String
  | Jso.null => "None"
  | Jso.s v => v
  | Jso.i n => toString n
  | Jso.b true => "True"
  | Jso.b false => "False"
  | Jso.obj _ => "<dict>"
  | Jso.arr _ => "<list>"

/-- Field lookup in a parsed JSON object (`none` when the key is absent). -/
def lookupField (fields : List (String × Jso)) (k : String) : Option Jso :=
  (fields.find? (fun p => p.1 == k)).map (fun p => p.2)

/-- Python `data.get(k)`: the value when present, `None` when the key is absent. -/
def dictGet (fields : List (String × Jso)) (k : String) : Jso :=
  (lookupField fields k).getD Jso.null

/-- Python `data.get(k, d)`: the value when present, the default `d` otherwise. -/
def dictGetD (fields : List (String × Jso)) (k : String) (d : Jso) : Jso :=
  (lookupField fields k).getD d

/-- Python `a or b` on values: `a` when truthy, otherwise `b`. -/
def pyOr (a b : Jso) : Jso :=
  if pyTruthy a then a else b

/-- Row of the `adk_threat_assessment` BigQuery table, as built by
`_parse_alert_payload_to_row` in `tools.py`.  Field values are dynamic Python
values; `Jso.null` models SQL/Python `None`. -/
structure AuditRow where
  transaction_window_end : Jso
  user_id : Jso
  device_id : Jso
  source_ip : Jso
  total_2_min_threat_score : Jso
  alert_payload : String
  agent_decision : Jso
  agent_reason : Jso
  human_decision : Jso
  human_reason : Jso

/-- Embedding of `_parse_alert_payload_to_row` (tools.py, lines 35-70).
`parse` stands for `json.loads`; `parse ap = none` models the raised
`JSONDecodeError`, which the function catches, leaving the row initialized.
When the parsed value is not a dict, the first `.get` raises
`AttributeError`, caught by the generic handler, again leaving the row
initialized. -/
def parse_alert_payload_to_row (parse : String → Option Jso) (ap : String) : AuditRow :=
  let base : AuditRow :=
    { transaction_window_end := Jso.null
      user_id := Jso.null
      device_id := Jso.null
      source_ip := Jso.null
      total_2_min_threat_score := Jso.null
      alert_payload := ap
      agent_decision := Jso.null
      agent_reason := Jso.null
      human_decision := Jso.null
      human_reason := Jso.null }
  match parse ap with
  | none => base
  | some (Jso.obj data) =>
      let ts := pyOr (dictGet data "window_end") (dictGet data "transaction_window_end")
      { base with
        user_id := pyOr (dictGet data "user") (dictGet data "user_id")
        device_id := pyOr (dictGet data "device") (dictGet data "device_id")
        source_ip := pyOr (dictGet data "ip_address") (dictGet data "source_ip")
        total_2_min_threat_score :=
          pyOr (dictGet data "threat_score") (dictGet data "total_2_min_threat_score")
        transaction_window_end := if pyTruthy ts then ts else Jso.null }
  | some _ => base

/-- Character class of the regex `^[a-zA-Z0-9\.]+` in `create_rich_ticket_id`. -/
def isTicketIdChar (c : Char) : Bool :=
  c.isAlphanum || c == '.'

/-- Leading run of ticket-id characters: `re.match` of `^[a-zA-Z0-9\.]+`
succeeds exactly when this run is nonempty, and `match.group(0)` is the run. -/
def leadingIdRun (s : String) : String :=
  String.mk (s.data.takeWhile isTicketIdChar)

/-- Embedding of `create_rich_ticket_id` (tools.py, lines 72-90).
`timestamp` stands for `int(time.time())`. -/
def create_rich_ticket_id (user_id : String) (timestamp : Nat) : String :=
  let clean_user :=
    if user_id = "" then "unknown_user"
    else if leadingIdRun user_id = "" then "invalid_id"
    else leadingIdRun user_id
  "ticket-" ++ clean_user ++ "-" ++ toString timestamp

/-- Sanitized-user component as the specification words it: the leading run of
alphanumeric/dot characters of the input, the sentinel `unknown_user` for an
empty input, and `invalid_id` when no such run exists. -/
def sanitizedUserSpec (user_id : String) : String :=
  if user_id = "" then "unknown_user"
  else if user_id.data.takeWhile isTicketIdChar = [] then "invalid_id"
  else String.mk (user_id.data.takeWhile isTicketIdChar)

theorem data_append_eq (a b : String) : (a ++ b).data = a.data ++ b.data := rfl

theorem leadingIdRun_eq_empty_iff (u : String) :
    leadingIdRun u = "" ↔ u.data.takeWhile isTicketIdChar = [] := by
  constructor
  · intro h
    exact congrArg String.data h
  · intro h
    unfold leadingIdRun
    rw [h]

/-- C6: the generated ticket id is `ticket-<sanitized-user>-<timestamp>` with
the sanitized user exactly as the specification describes it, and the result
is never the externally supplied placeholder string `ticket-pubsub`. -/
theorem create_rich_ticket_id_shape_and_never_placeholder (u : String) (t : Nat) :
    create_rich_ticket_id u t = "ticket-" ++ sanitizedUserSpec u ++ "-" ++ toString t ∧
    create_rich_ticket_id u t ≠ "ticket-pubsub" := by
  constructor
  · simp only [create_rich_ticket_id, sanitizedUserSpec]
    by_cases h0 : u = ""
    · rw [if_pos h0, if_pos h0]
    · by_cases h1 : u.data.takeWhile isTicketIdChar = []
      · rw [if_neg h0, if_neg h0, if_pos ((leadingIdRun_eq_empty_iff u).mpr h1), if_pos h1]
      · have h1b : ¬ leadingIdRun u = "" := fun hc => h1 ((leadingIdRun_eq_empty_iff u).mp hc)
        rw [if_neg h0, if_neg h0, if_neg h1b, if_neg h1]
        rfl
  · intro h
    have hd := congrArg (fun s => s.data.count ('-')) h
    simp only [create_rich_ticket_id, data_append_eq, List.count_append] at hd
    have e1 : ("ticket-" : String).data.count ('-') = 1 := by decide
    have e2 : ("-" : String).data.count ('-') = 1 := by decide
    have e3 : ("ticket-pubsub" : String).data.count ('-') = 1 := by decide
    rw [e1, e2, e3] at hd
    omega

/-- Python regex word character (ASCII fragment of the character class `\w`,
which is what the uppercased SQL keywords and the boundary test exercise). -/
def isWordChar (c : Char) : Bool :=
  c.isAlphanum || c == '_'

/-- Leading-whitespace removal, at the character-list level. -/
def dropLeadingWs (l : List Char) : List Char :=
  l.dropWhile Char.isWhitespace

/-- Python `str.strip()`: remove leading and trailing whitespace. -/
def pyStrip (l : List Char) : List Char :=
  ((dropLeadingWs l).reverse.dropWhile Char.isWhitespace).reverse

/-- Python `re.match(rf"\b<kw>\b", s)` for a keyword made of word
characters: the match succeeds exactly when `s` starts with `kw` and the
character following the keyword, when there is one, is not a word character. -/
def reMatchWord (kw : List Char) (q : List Char) : Bool :=
  kw.isPrefixOf q &&
    (match q.drop kw.length with
     | [] => true
     | c :: _ => !isWordChar c)

/-- The list `forbidden_dml` of `forbidden_dml_check` (agent.py, line 83). -/
def forbidden_dml : List String := ["UPDATE", "DELETE", "MERGE", "TRUNCATE"]

/-- Rejection payload returned by the guard (the `result` value of the dict). -/
def dmlBlockMessage : String :=
  "Tool execution was blocked by before_tool_callback due to a DML statement."

/-- Embedding of `forbidden_dml_check` (agent.py, lines 74-89).  The logging
side effect is dropped; `query` models `args.get("query")` and the returned
`Option String` models the optional `{"result": ...}` dict (returning it
blocks the tool call; `none` passes the call through).  The dead `KeyError`
handler is unreachable because `dict.get` never raises. -/
def forbidden_dml_check (toolName : String) (query : Option String) : Option String :=
  if toolName = "execute_sql" then
    match query with
    | some q =>
        if q = "" then none
        else
          let normalized := pyStrip (q.data.map Char.toUpper)
          if forbidden_dml.any (fun kw => reMatchWord kw.data normalized) then
            some dmlBlockMessage
          else none
    | none => none
  else none

/-- Claim-side predicate, worded as the specification does: after leading
whitespace and case folding, the query begins with one of the forbidden
keywords as a whole leading word. -/
def beginsWithForbiddenDml (q : String) : Bool :=
  forbidden_dml.any (fun kw => reMatchWord kw.data (dropLeadingWs (q.data.map Char.toUpper)))

theorem ws_not_word (c : Char) (h : c.isWhitespace = true) : isWordChar c = false := by
  simp only [Char.isWhitespace, Bool.or_eq_true, decide_eq_true_eq] at h
  rcases h with (((h | h) | h) | h) <;> subst h <;> decide

theorem takeWhile_word_append_ws (u v : List Char)
    (hv : ∀ c ∈ v, c.isWhitespace = true) :
    (u ++ v).takeWhile isWordChar = u.takeWhile isWordChar := by
  induction u with
  | nil =>
      simp only [List.nil_append, List.takeWhile_nil]
      cases v with
      | nil => rfl
      | cons c t =>
          have := ws_not_word c (hv c (List.mem_cons_self c t))
          simp [List.takeWhile_cons, this]
  | cons a u ih =>
      by_cases ha : isWordChar a
      · simp [List.takeWhile_cons, ha, ih]
      · simp [List.takeWhile_cons, ha]

theorem strip_right_decomp (a : List Char) :
    a = (a.reverse.dropWhile Char.isWhitespace).reverse ++
        (a.reverse.takeWhile Char.isWhitespace).reverse := by
  conv_lhs =>
    rw [← List.reverse_reverse a,
        ← List.takeWhile_append_dropWhile Char.isWhitespace a.reverse]
  rw [List.reverse_append]

theorem mem_takeWhile_ws (l : List Char) (c : Char)
    (h : c ∈ l.takeWhile Char.isWhitespace) : c.isWhitespace = true := by
  induction l with
  | nil => simp [List.takeWhile_nil] at h
  | cons a t ih =>
      by_cases ha : a.isWhitespace
      · rw [List.takeWhile_cons_of_pos ha] at h
        rcases List.mem_cons.mp h with rfl | h2
        · exact ha
        · exact ih h2
      · rw [List.takeWhile_cons_of_neg ha] at h
        simp at h

theorem takeWhile_word_stripRight (a : List Char) :
    ((a.reverse.dropWhile Char.isWhitespace).reverse).takeWhile isWordChar =
      a.takeWhile isWordChar := by
  conv_rhs => rw [strip_right_decomp a]
  exact (takeWhile_word_append_ws _ _ (fun c hc =>
    mem_takeWhile_ws a.reverse c (List.mem_reverse.mp hc))).symm

theorem reMatchWord_iff (kw : List Char) (hkw : kw.all isWordChar = true) :
    ∀ q : List Char, reMatchWord kw q = true ↔ q.takeWhile isWordChar = kw := by
  induction kw with
  | nil =>
      intro q
      cases q with
      | nil => simp [reMatchWord]
      | cons c t =>
          by_cases hc : isWordChar c <;>
            simp [reMatchWord, List.takeWhile_cons, hc]
  | cons k kt ih =>
      have hk : isWordChar k = true := by
        simp only [List.all_cons, Bool.and_eq_true] at hkw
        exact hkw.1
      have hkt : kt.all isWordChar = true := by
        simp only [List.all_cons, Bool.and_eq_true] at hkw
        exact hkw.2
      intro q
      cases q with
      | nil => simp [reMatchWord]
      | cons c t =>
          by_cases hkc : k = c
          · subst hkc
            have hmain := ih hkt t
            simp only [reMatchWord] at hmain ⊢
            simp [List.isPrefixOf_cons₂, List.takeWhile_cons, hk,
              List.drop_succ_cons, Bool.and_assoc] at hmain ⊢
            exact hmain
          · have hck : ¬ c = k := fun h => hkc h.symm
            simp [reMatchWord, List.isPrefixOf_cons₂, hkc, List.takeWhile_cons, hck]
            intro h
            by_cases hc : isWordChar c
            · simp [hc] at h
              exact absurd h.1.symm hkc
            · simp [hc] at h

theorem bool_eq_of_iff {a b : Bool} (h : a = true ↔ b = true) : a = b := by
  cases a <;> cases b <;> simp_all

theorem reMatchWord_pyStrip (kw : String) (m : List Char)
    (hkw : kw.data.all isWordChar = true) :
    reMatchWord kw.data (pyStrip m) = reMatchWord kw.data (dropLeadingWs m) := by
  apply bool_eq_of_iff
  rw [reMatchWord_iff kw.data hkw, reMatchWord_iff kw.data hkw]
  unfold pyStrip
  rw [takeWhile_word_stripRight (dropLeadingWs m)]

/-- C5: for the SQL-execution tool, the pre-execution guard blocks exactly the
queries that begin (case-insensitively, after leading whitespace) with
`UPDATE`, `DELETE`, `MERGE` or `TRUNCATE` as the leading keyword, returning
the rejection payload instead of letting the call through; all other queries
pass through with `none`. -/
theorem forbidden_dml_check_blocks_leading_dml (q : String) :
    forbidden_dml_check "execute_sql" (some q) =
      (if beginsWithForbiddenDml q then some dmlBlockMessage else none) := by
  have h1 := reMatchWord_pyStrip "UPDATE" (q.data.map Char.toUpper) (by decide)
  have h2 := reMatchWord_pyStrip "DELETE" (q.data.map Char.toUpper) (by decide)
  have h3 := reMatchWord_pyStrip "MERGE" (q.data.map Char.toUpper) (by decide)
  have h4 := reMatchWord_pyStrip "TRUNCATE" (q.data.map Char.toUpper) (by decide)
  by_cases hq : q = ""
  · subst hq
    have : beginsWithForbiddenDml "" = false := by decide
    rw [this]
    rfl
  · simp only [forbidden_dml_check, beginsWithForbiddenDml, forbidden_dml,
      if_pos rfl, if_neg hq, List.any_cons, List.any_nil, h1, h2, h3, h4]
    simp

/-- GCS escalation bucket contents: an association list from object path to
object content.  The most recent `put` for a path shadows older ones; a
delete removes every binding for the path. -/
abbrev Store := List (String × String)

/-- Existence/download of a blob: content of the object at `p`, if present. -/
def storeLookup (s : Store) (p : String) : Option String :=
  (s.find? (fun e => e.1 == p)).map (fun e => e.2)

/-- Blob upload (`upload_from_string`). -/
def storePut (s : Store) (p c : String) : Store :=
  (p, c) :: s

/-- Blob deletion (`blob.delete()`). -/
def storeDelete (s : Store) (p : String) : Store :=
  s.filter (fun e => e.1 != p)

theorem storeLookup_put_self (s : Store) (p c : String) :
    storeLookup (storePut s p c) p = some c := by
  simp [storeLookup, storePut, List.find?]

theorem storeLookup_put_ne (s : Store) (p c q : String) (h : q ≠ p) :
    storeLookup (storePut s p c) q = storeLookup s q := by
  have hb : (p == q) = false := by
    simp only [beq_eq_false_iff_ne, ne_eq]
    exact fun hc => h hc.symm
  simp [storeLookup, storePut, List.find?, hb]

theorem storeLookup_delete_self (s : Store) (p : String) :
    storeLookup (storeDelete s p) p = none := by
  induction s with
  | nil => rfl
  | cons e t ih =>
      by_cases he : e.1 = p
      · simp only [storeDelete, List.filter, he, bne_self_eq_false]
        exact ih
      · have h1 : (e.1 != p) = true := by simp [he]
        have h2 : (e.1 == p) = false := by simp [he]
        simp only [storeDelete, storeLookup, List.filter, List.find?, h1, h2] at ih ⊢
        exact ih

theorem storeLookup_delete_ne (s : Store) (p q : String) (h : q ≠ p) :
    storeLookup (storeDelete s p) q = storeLookup s q := by
  induction s with
  | nil => rfl
  | cons e t ih =>
      by_cases he : e.1 = p
      · have h1 : (e.1 != p) = false := by simp [he]
        have h2 : (e.1 == q) = false := by
          simp only [beq_eq_false_iff_ne, ne_eq, he]
          exact fun hc => h hc.symm
        simpa [storeDelete, storeLookup, List.filter, List.find?, h1, h2] using ih
      · have h1 : (e.1 != p) = true := by simp [he]
        by_cases heq : e.1 = q
        · have h2 : (e.1 == q) = true := by simp [heq]
          simp [storeDelete, storeLookup, List.filter, List.find?, h1, h2]
        · have h2 : (e.1 == q) = false := by simp [heq]
          simpa [storeDelete, storeLookup, List.filter, List.find?, h1, h2] using ih

/-- Path of the escalation request object
(`human_escalation_information_<ticket>.json`, tools.py line 279). -/
def reqPath (ticket_id : String) : String :=
  "human_escalation_information_" ++ ticket_id ++ ".json"

/-- Path of the escalation response object
(`human_escalation_response_<ticket>.json`, tools.py line 293). -/
def respPath (ticket_id : String) : String :=
  "human_escalation_response_" ++ ticket_id ++ ".json"

theorem reqPath_ne_respPath (tid : String) : reqPath tid ≠ respPath tid := by
  intro h
  have hlen := congrArg (fun s => s.data.length) h
  simp only [reqPath, respPath, data_append_eq, List.length_append] at hlen
  have e1 : ("human_escalation_information_" : String).data.length = 29 := by decide
  have e2 : ("human_escalation_response_" : String).data.length = 26 := by decide
  rw [e1, e2] at hlen
  omega

/-- Embedding of `log_false_positive` (tools.py, lines 248-263).  The
BigQuery `insert_rows_json` call appends one new row to the table; the
successful-insert path (empty error list) is modelled. -/
def log_false_positive (parse : String → Option Jso) (alert_payload agent_comment : String)
    (audit : List AuditRow) : String × List AuditRow :=
  let row := parse_alert_payload_to_row parse alert_payload
  let row := { row with
    agent_decision := Jso.s "FALSE_POSITIVE"
    agent_reason := Jso.s agent_comment
    human_decision := Jso.null
    human_reason := Jso.null }
  ("Successfully logged the alert as a false positive.", audit ++ [row])

/-- Embedding of `log_human_decision` (tools.py, lines 351-372).  Despite its
docstring ("Updates an existing escalation record"), the body calls
`insert_rows_json`, which appends a fresh row; the row schema has no
`ticket_id` column, and the `ticket_id` argument does not flow into the
written row at all. -/
def log_human_decision (parse : String → Option Jso) (ticket_id : String)
    (human_decision human_comment : Jso)
    (alert_payload agent_reason_for_escalation : String)
    (audit : List AuditRow) : String × List AuditRow :=
  let row := parse_alert_payload_to_row parse alert_payload
  let row := { row with
    agent_decision := Jso.s "PERCEIVED_THREAT"
    agent_reason := Jso.s agent_reason_for_escalation
    human_decision := human_decision
    human_reason := human_comment }
  ("Successfully logged human decision.", audit ++ [row])

/-- Result of one run of `escalate_to_human`: a normal return carrying the
tool message, or an uncaught Python exception propagating out of the
function.  Both carry the blob-store and audit-table state at that moment. -/
inductive EscalationOutcome where
  | ok (message : String) (store : Store) (audit : List AuditRow)
  | exn (exnName : String) (store : Store) (audit : List AuditRow)

/-- Whether the run ended in an uncaught exception. -/
def EscalationOutcome.isExn : EscalationOutcome → Bool
  | EscalationOutcome.ok _ _ _ => false
  | EscalationOutcome.exn _ _ _ => true

/-- Audit-table state when the run ended. -/
def EscalationOutcome.auditRows : EscalationOutcome → List AuditRow
  | EscalationOutcome.ok _ _ au => au
  | EscalationOutcome.exn _ _ au => au

/-- Blob-store state when the run ended. -/
def EscalationOutcome.storeOf : EscalationOutcome → Store
  | EscalationOutcome.ok _ st _ => st
  | EscalationOutcome.exn _ st _ => st

/-- Polling loop of `escalate_to_human` (tools.py, lines 292-348), including
the timeout handling after the loop.  `i` is the poll iteration index and
`fuel` the number of loop-condition checks left inside the 300-second budget
(300 s at a 2 s sleep gives 150 in the reference deployment).  Before each
poll the human oracle may deposit the response object at the response path;
`blob_response.exists()` and the download then read the store.  A `parse`
failure on the downloaded content models the uncaught `json.JSONDecodeError`
of line 305, and a non-dict response models the uncaught `AttributeError`
raised by `.get` on line 306. -/
def escalateLoop (parse : String → Option Jso) (human : Nat → Option String)
    (ticket_id alert_payload agent_reason : String) :
    Nat → Nat → Store → List AuditRow → EscalationOutcome
  | _, 0, store, audit =>
      let res := log_human_decision parse ticket_id (Jso.s "Event not categorized in time")
        (Jso.s "N/A") alert_payload agent_reason audit
      let store2 := if (storeLookup store (reqPath ticket_id)).isSome then
          storeDelete store (reqPath ticket_id) else store
      EscalationOutcome.ok
        "Human review timed out after 5 minutes. Event logged as \x27Event not categorized in time\x27."
        store2 res.2
  | i, fuel + 1, store, audit =>
      let store1 := match human i with
        | some c => storePut store (respPath ticket_id) c
        | none => store
      match storeLookup store1 (respPath ticket_id) with
      | some content =>
          match parse content with
          | none => EscalationOutcome.exn "json.JSONDecodeError" store1 audit
          | some (Jso.obj fields) =>
              let human_decision := dictGetD fields "human_decision" (Jso.s "No decision found.")
              let human_comment := dictGetD fields "human_comment" (Jso.s "")
              let res := log_human_decision parse ticket_id human_decision human_comment
                alert_payload agent_reason audit
              let store2 := storeDelete store1 (reqPath ticket_id)
              let store3 := storeDelete store2 (respPath ticket_id)
              EscalationOutcome.ok
                ("Human Approver responded with \x27" ++ pyStr human_decision ++
                  "\x27. Decision has been logged to BigQuery.")
                store3 res.2
          | some _ => EscalationOutcome.exn "AttributeError" store1 audit
      | none =>
          escalateLoop parse human ticket_id alert_payload agent_reason (i + 1) fuel store1 audit

/-- JSON text of the escalation request object (`json.dumps(request_payload)`
of tools.py lines 280-290; only its presence at the request path matters to
the protocol). -/
def requestJson (ts ticket_id context_data reason : String) : String :=
  "\x7b\"timestamp\": \"" ++ ts ++ "\", \"ticket_id\": \"" ++ ticket_id ++
    "\", \"context_for_human\": \"" ++ context_data ++
    "\", \"agent_reason_for_escalation\": \"" ++ reason ++ "\"\x7d"

/-- Embedding of `escalate_to_human` (tools.py, lines 265-348): upload the
request object, then run the polling loop.  `now_iso` stands for
`datetime.now(timezone.utc).isoformat()`. -/
def escalate_to_human (parse : String → Option Jso) (human : Nat → Option String)
    (fuel : Nat)
    (now_iso ticket_id alert_payload agent_reason_for_escalation context_data : String)
    (store : Store) (audit : List AuditRow) : EscalationOutcome :=
  let store1 := storePut store (reqPath ticket_id)
    (requestJson now_iso ticket_id context_data agent_reason_for_escalation)
  escalateLoop parse human ticket_id alert_payload agent_reason_for_escalation 0 fuel store1 audit

theorem escalateLoop_skip (parse : String → Option Jso) (human : Nat → Option String)
    (tid ap reason : String) :
    ∀ (k m i : Nat) (store : Store) (audit : List AuditRow),
      (∀ j, j < k → human (i + j) = none) →
      storeLookup store (respPath tid) = none →
      escalateLoop parse human tid ap reason i (k + m) store audit =
        escalateLoop parse human tid ap reason (i + k) m store audit := by
  intro k
  induction k with
  | zero =>
      intro m i store audit _ _
      rw [Nat.zero_add, Nat.add_zero]
  | succ k ih =>
      intro m i store audit hnone hresp
      have h0 : human i = none := by
        have := hnone 0 (Nat.zero_lt_succ k)
        simpa using this
      have hstep : (k + 1) + m = (k + m) + 1 := by omega
      rw [hstep]
      have hunfold :
          escalateLoop parse human tid ap reason i ((k + m) + 1) store audit =
            escalateLoop parse human tid ap reason (i + 1) (k + m) store audit := by
        simp only [escalateLoop, h0, hresp]
      rw [hunfold]
      have hrec := ih m (i + 1) store audit
        (fun j hj => by
          have hx := hnone (j + 1) (by omega)
          have harith : i + (j + 1) = (i + 1) + j := by omega
          rwa [harith] at hx)
        hresp
      rw [hrec]
      have harith2 : (i + 1) + k = i + (k + 1) := by omega
      rw [harith2]

theorem escalateLoop_found (parse : String → Option Jso) (human : Nat → Option String)
    (tid ap reason : String) (i fuel : Nat) (store : Store) (audit : List AuditRow)
    (c : String) (fields : List (String × Jso))
    (hc : human i = some c) (hparse : parse c = some (Jso.obj fields)) :
    escalateLoop parse human tid ap reason i (fuel + 1) store audit =
      EscalationOutcome.ok
        ("Human Approver responded with \x27" ++
          pyStr (dictGetD fields "human_decision" (Jso.s "No decision found.")) ++
          "\x27. Decision has been logged to BigQuery.")
        (storeDelete (storeDelete (storePut store (respPath tid) c) (reqPath tid)) (respPath tid))
        (audit ++ [{ parse_alert_payload_to_row parse ap with
          agent_decision := Jso.s "PERCEIVED_THREAT"
          agent_reason := Jso.s reason
          human_decision := dictGetD fields "human_decision" (Jso.s "No decision found.")
          human_reason := dictGetD fields "human_comment" (Jso.s "") }]) := by
  simp only [escalateLoop, hc, storeLookup_put_self, hparse, log_human_decision]

theorem escalateLoop_timeout (parse : String → Option Jso) (human : Nat → Option String)
    (tid ap reason : String) (fuel i : Nat) (store : Store) (audit : List AuditRow)
    (hnone : ∀ j, human j = none) (hresp : storeLookup store (respPath tid) = none) :
    escalateLoop parse human tid ap reason i fuel store audit =
      EscalationOutcome.ok
        "Human review timed out after 5 minutes. Event logged as \x27Event not categorized in time\x27."
        (if (storeLookup store (reqPath tid)).isSome then storeDelete store (reqPath tid) else store)
        (audit ++ [{ parse_alert_payload_to_row parse ap with
          agent_decision := Jso.s "PERCEIVED_THREAT"
          agent_reason := Jso.s reason
          human_decision := Jso.s "Event not categorized in time"
          human_reason := Jso.s "N/A" }]) := by
  have h := escalateLoop_skip parse human tid ap reason fuel 0 i store audit
    (fun j _ => hnone (i + j)) hresp
  have h2 : escalateLoop parse human tid ap reason i fuel store audit =
      escalateLoop parse human tid ap reason (i + fuel) 0 store audit := by
    simpa using h
  rw [h2]
  simp only [escalateLoop, log_human_decision]

/-- C2: when no response object ever appears, `escalate_to_human` polls away
the whole budget, writes one audit row with
`human_decision = "Event not categorized in time"` (and
`agent_decision = PERCEIVED_THREAT`), deletes the request object, reports the
timeout message to the caller, and leaves no residual object at either the
request or the response path. -/
theorem escalate_to_human_timeout_resolves_and_cleans
    (parse : String → Option Jso) (human : Nat → Option String) (fuel : Nat)
    (ts tid ap reason ctx : String) (store : Store) (audit : List AuditRow)
    (hresp : storeLookup store (respPath tid) = none)
    (hnone : ∀ i, human i = none) :
    ∃ st : Store,
      escalate_to_human parse human fuel ts tid ap reason ctx store audit =
        EscalationOutcome.ok
          "Human review timed out after 5 minutes. Event logged as \x27Event not categorized in time\x27."
          st
          (audit ++ [{ parse_alert_payload_to_row parse ap with
            agent_decision := Jso.s "PERCEIVED_THREAT"
            agent_reason := Jso.s reason
            human_decision := Jso.s "Event not categorized in time"
            human_reason := Jso.s "N/A" }]) ∧
      storeLookup st (reqPath tid) = none ∧
      storeLookup st (respPath tid) = none := by
  unfold escalate_to_human
  have hresp1 : storeLookup (storePut store (reqPath tid) (requestJson ts tid ctx reason))
      (respPath tid) = none := by
    rw [storeLookup_put_ne _ _ _ _ (reqPath_ne_respPath tid).symm]
    exact hresp
  have h := escalateLoop_timeout parse human tid ap reason fuel 0
    (storePut store (reqPath tid) (requestJson ts tid ctx reason)) audit hnone hresp1
  refine ⟨_, h, ?_, ?_⟩
  · rw [storeLookup_put_self, Option.isSome_some, if_pos rfl]
    exact storeLookup_delete_self _ _
  · rw [storeLookup_put_self, Option.isSome_some, if_pos rfl]
    rw [storeLookup_delete_ne _ _ _ (reqPath_ne_respPath tid).symm]
    exact hresp1

/-- C1: when a well-formed response object appears at the response path at
poll iteration `i`, still inside the budget, `escalate_to_human` parses it,
writes one audit row with `agent_decision = PERCEIVED_THREAT` and the human
fields taken from the response, deletes both the request and the response
objects, and reports success to the caller, leaving zero residual objects at
either path. -/
theorem escalate_to_human_success_resolves_and_cleans
    (parse : String → Option Jso) (human : Nat → Option String) (fuel : Nat)
    (ts tid ap reason ctx : String) (store : Store) (audit : List AuditRow)
    (i : Nat) (c : String) (fields : List (String × Jso)) (hd hcm : Jso)
    (hresp : storeLookup store (respPath tid) = none)
    (hfirst : ∀ j, j < i → human j = none)
    (hi : i < fuel)
    (hc : human i = some c)
    (hparse : parse c = some (Jso.obj fields))
    (hhd : lookupField fields "human_decision" = some hd)
    (hhc : lookupField fields "human_comment" = some hcm) :
    ∃ st : Store,
      escalate_to_human parse human fuel ts tid ap reason ctx store audit =
        EscalationOutcome.ok
          ("Human Approver responded with \x27" ++ pyStr hd ++
            "\x27. Decision has been logged to BigQuery.")
          st
          (audit ++ [{ parse_alert_payload_to_row parse ap with
            agent_decision := Jso.s "PERCEIVED_THREAT"
            agent_reason := Jso.s reason
            human_decision := hd
            human_reason := hcm }]) ∧
      storeLookup st (reqPath tid) = none ∧
      storeLookup st (respPath tid) = none := by
  unfold escalate_to_human
  have hresp1 : storeLookup (storePut store (reqPath tid) (requestJson ts tid ctx reason))
      (respPath tid) = none := by
    rw [storeLookup_put_ne _ _ _ _ (reqPath_ne_respPath tid).symm]
    exact hresp
  have hfuel : fuel = i + ((fuel - i - 1) + 1) := by omega
  rw [hfuel]
  have hskip := escalateLoop_skip parse human tid ap reason i ((fuel - i - 1) + 1) 0
    (storePut store (reqPath tid) (requestJson ts tid ctx reason)) audit
    (fun j hj => by simpa using hfirst j hj) hresp1
  rw [hskip, Nat.zero_add]
  rw [escalateLoop_found parse human tid ap reason i (fuel - i - 1) _ audit c fields hc hparse]
  have hgd : dictGetD fields "human_decision" (Jso.s "No decision found.") = hd := by
    simp [dictGetD, hhd]
  have hgc : dictGetD fields "human_comment" (Jso.s "") = hcm := by
    simp [dictGetD, hhc]
  rw [hgd, hgc]
  refine ⟨_, rfl, ?_, ?_⟩
  · rw [storeLookup_delete_ne _ _ _ (reqPath_ne_respPath tid)]
    exact storeLookup_delete_self _ _
  · exact storeLookup_delete_self _ _

theorem escalateLoop_single_write (parse : String → Option Jso) (human : Nat → Option String)
    (tid ap reason : String) :
    ∀ (fuel i : Nat) (store : Store) (audit : List AuditRow) (msg : String)
      (st : Store) (au : List AuditRow),
      escalateLoop parse human tid ap reason i fuel store audit =
        EscalationOutcome.ok msg st au →
      ∃ row : AuditRow, au = audit ++ [row] ∧
        row.agent_decision = Jso.s "PERCEIVED_THREAT" := by
  intro fuel
  induction fuel with
  | zero =>
      intro i store audit msg st au h
      simp only [escalateLoop, log_human_decision] at h
      injection h with h1 h2 h3
      exact ⟨_, h3.symm, rfl⟩
  | succ fuel ih =>
      intro i store audit msg st au h
      simp only [escalateLoop] at h
      split at h
      · split at h
        · exact EscalationOutcome.noConfusion h
        · simp only [log_human_decision] at h
          injection h with h1 h2 h3
          exact ⟨_, h3.symm, rfl⟩
        · exact EscalationOutcome.noConfusion h
      · exact ih (i + 1) _ audit msg st au h

/-- C7 (amended): on the escalation path, exactly one audit row is written
for the ticket — appended at resolution time (human response or timeout) and
carrying `agent_decision = PERCEIVED_THREAT` together with the human-decision
outcome.  No separate initial agent-decision write precedes it; the lineage
of an escalated ticket is this single combined insert. -/
theorem escalate_to_human_single_audit_write
    (parse : String → Option Jso) (human : Nat → Option String) (fuel : Nat)
    (ts tid ap reason ctx : String) (store : Store) (audit : List AuditRow)
    (msg : String) (st : Store) (au : List AuditRow)
    (h : escalate_to_human parse human fuel ts tid ap reason ctx store audit =
      EscalationOutcome.ok msg st au) :
    ∃ row : AuditRow, au = audit ++ [row] ∧
      row.agent_decision = Jso.s "PERCEIVED_THREAT" := by
  unfold escalate_to_human at h
  exact escalateLoop_single_write parse human tid ap reason fuel 0 _ audit msg st au h

/-- C4 (amended): when the first response object found during polling fails
to parse as JSON, `escalate_to_human` does not fall through to timeout
handling — the `json.loads` exception propagates out of the function; no
terminal audit row is written and no cleanup happens, so both the request
and the response objects are still in the store at the moment of the raise. -/
theorem escalate_malformed_response_raises
    (parse : String → Option Jso) (human : Nat → Option String) (fuel : Nat)
    (ts tid ap reason ctx : String) (store : Store) (audit : List AuditRow)
    (i : Nat) (c : String)
    (hresp : storeLookup store (respPath tid) = none)
    (hfirst : ∀ j, j < i → human j = none)
    (hi : i < fuel)
    (hc : human i = some c)
    (hparse : parse c = none) :
    escalate_to_human parse human fuel ts tid ap reason ctx store audit =
      EscalationOutcome.exn "json.JSONDecodeError"
        (storePut (storePut store (reqPath tid) (requestJson ts tid ctx reason))
          (respPath tid) c)
        audit := by
  unfold escalate_to_human
  have hresp1 : storeLookup (storePut store (reqPath tid) (requestJson ts tid ctx reason))
      (respPath tid) = none := by
    rw [storeLookup_put_ne _ _ _ _ (reqPath_ne_respPath tid).symm]
    exact hresp
  have hfuel : fuel = i + ((fuel - i - 1) + 1) := by omega
  rw [hfuel]
  have hskip := escalateLoop_skip parse human tid ap reason i ((fuel - i - 1) + 1) 0
    (storePut store (reqPath tid) (requestJson ts tid ctx reason)) audit
    (fun j hj => by simpa using hfirst j hj) hresp1
  rw [hskip, Nat.zero_add]
  simp only [escalateLoop, hc, storeLookup_put_self, hparse]

/-- Concrete stand-in for `json.loads` on inputs that are not valid JSON:
every string fails to parse (models a deployment where the alert payload and
any response content is malformed). -/
def parse0 : String → Option Jso := fun _ => none

/-- Human-reviewer oracle that never writes a response object. -/
def human0 : Nat → Option String := fun _ => none

/-- Human-reviewer oracle that immediately writes a malformed response. -/
def humanBad : Nat → Option String := fun _ => some "not-json"

/-- Content of a well-formed response object used in concrete runs. -/
def respContentW : String :=
  "\x7b\"human_decision\": \"Confirmed Threat\", \"human_comment\": \"Block user\"\x7d"

/-- Parsed fields of `respContentW`. -/
def respFieldsW : List (String × Jso) :=
  [("human_decision", Jso.s "Confirmed Threat"), ("human_comment", Jso.s "Block user")]

/-- Concrete stand-in for `json.loads` that parses exactly `respContentW`. -/
def parseW : String → Option Jso :=
  fun s => if s == respContentW then some (Jso.obj respFieldsW) else none

/-- Human-reviewer oracle that writes the well-formed response at once. -/
def humanW : Nat → Option String := fun _ => some respContentW

theorem escalate_to_human_timeout_witness :
    ∃ st : Store,
      escalate_to_human parse0 human0 150 "2026-02-03T04:05:06+00:00" "ticket-u.lewis-1760000000"
          "not json payload" "sustained suspicious activity" "incident report" [] [] =
        EscalationOutcome.ok
          "Human review timed out after 5 minutes. Event logged as \x27Event not categorized in time\x27."
          st
          ([] ++ [{ parse_alert_payload_to_row parse0 "not json payload" with
            agent_decision := Jso.s "PERCEIVED_THREAT"
            agent_reason := Jso.s "sustained suspicious activity"
            human_decision := Jso.s "Event not categorized in time"
            human_reason := Jso.s "N/A" }]) ∧
      storeLookup st (reqPath "ticket-u.lewis-1760000000") = none ∧
      storeLookup st (respPath "ticket-u.lewis-1760000000") = none :=
  escalate_to_human_timeout_resolves_and_cleans parse0 human0 150 _ _ _ _ _ [] []
    rfl (fun _ => rfl)

theorem escalate_to_human_success_witness :
    ∃ st : Store,
      escalate_to_human parseW humanW 150 "2026-02-03T04:05:06+00:00" "ticket-u.lewis-1760000000"
          "payload" "threat detected" "incident report" [] [] =
        EscalationOutcome.ok
          ("Human Approver responded with \x27" ++ pyStr (Jso.s "Confirmed Threat") ++
            "\x27. Decision has been logged to BigQuery.")
          st
          ([] ++ [{ parse_alert_payload_to_row parseW "payload" with
            agent_decision := Jso.s "PERCEIVED_THREAT"
            agent_reason := Jso.s "threat detected"
            human_decision := Jso.s "Confirmed Threat"
            human_reason := Jso.s "Block user" }]) ∧
      storeLookup st (reqPath "ticket-u.lewis-1760000000") = none ∧
      storeLookup st (respPath "ticket-u.lewis-1760000000") = none :=
  escalate_to_human_success_resolves_and_cleans parseW humanW 150 _ _ _ _ _ [] []
    0 respContentW respFieldsW (Jso.s "Confirmed Threat") (Jso.s "Block user")
    rfl (fun j hj => absurd hj (Nat.not_lt_zero j)) (by omega) rfl (by simp [parseW]) rfl rfl

theorem escalate_malformed_response_raises_witness :
    escalate_to_human parse0 humanBad 150 "ts0" "ticket-x-1" "payload" "reason" "ctx" [] [] =
      EscalationOutcome.exn "json.JSONDecodeError"
        (storePut (storePut [] (reqPath "ticket-x-1") (requestJson "ts0" "ticket-x-1" "ctx" "reason"))
          (respPath "ticket-x-1") "not-json")
        [] :=
  escalate_malformed_response_raises parse0 humanBad 150 _ _ _ _ _ [] [] 0 "not-json"
    rfl (fun j hj => absurd hj (Nat.not_lt_zero j)) (by omega) rfl rfl

/-- C4 counterexample: at a concrete run where the human deposits a response
that is not valid JSON, `escalate_to_human` does not fall through to timeout
handling: it terminates exceptionally, writes no terminal audit row, and
leaves both the request and the response objects in place. -/
theorem escalate_malformed_response_crashes_cex :
    (escalate_to_human parse0 humanBad 150 "ts0" "ticket-x-1" "payload" "reason" "ctx" [] []).isExn
        = true ∧
    (escalate_to_human parse0 humanBad 150 "ts0" "ticket-x-1" "payload" "reason" "ctx" [] []).auditRows
        = [] ∧
    storeLookup
        (escalate_to_human parse0 humanBad 150 "ts0" "ticket-x-1" "payload" "reason" "ctx" [] []).storeOf
        (respPath "ticket-x-1") = some "not-json" ∧
    (storeLookup
        (escalate_to_human parse0 humanBad 150 "ts0" "ticket-x-1" "payload" "reason" "ctx" [] []).storeOf
        (reqPath "ticket-x-1")).isSome = true :=
  ⟨rfl, rfl, rfl, rfl⟩

/-- C7 counterexample: a full escalation run (timeout path) produces an audit
lineage consisting of exactly one row, and that single row is the
human-decision write — so no initial agent-decision write precedes the
human-decision update for the ticket. -/
theorem escalation_audit_single_row_cex :
    (escalate_to_human parse0 human0 2 "ts0" "ticket-x-1" "payload" "reason" "ctx" [] []).auditRows.length
        = 1 ∧
    (escalate_to_human parse0 human0 2 "ts0" "ticket-x-1" "payload" "reason" "ctx" [] []).auditRows.map
        (fun r => r.human_decision) = [Jso.s "Event not categorized in time"] :=
  ⟨rfl, rfl⟩

theorem escalate_to_human_single_audit_write_witness :
    ∃ row : AuditRow,
      [({ parse_alert_payload_to_row parse0 "payload" with
          agent_decision := Jso.s "PERCEIVED_THREAT"
          agent_reason := Jso.s "reason"
          human_decision := Jso.s "Event not categorized in time"
          human_reason := Jso.s "N/A" } : AuditRow)] = [] ++ [row] ∧
      row.agent_decision = Jso.s "PERCEIVED_THREAT" :=
  escalate_to_human_single_audit_write parse0 human0 2 "ts0" "ticket-x-1" "payload" "reason" "ctx"
    [] [] _ _ _ rfl

/-- C3: re-running the human-decision audit write with identical data is not
idempotent — each call appends a fresh row (BigQuery `insert_rows_json`), so
two identical calls leave two rows where one call leaves one. -/
theorem log_human_decision_double_insert_not_idempotent :
    ((log_human_decision parse0 "ticket-u.lewis-1760000000" (Jso.s "Confirmed Threat")
        (Jso.s "ok") "payload" "reason" []).2).length = 1 ∧
    ((log_human_decision parse0 "ticket-u.lewis-1760000000" (Jso.s "Confirmed Threat")
        (Jso.s "ok") "payload" "reason"
        ((log_human_decision parse0 "ticket-u.lewis-1760000000" (Jso.s "Confirmed Threat")
            (Jso.s "ok") "payload" "reason" []).2)).2).length = 2 ∧
    ((log_human_decision parse0 "ticket-u.lewis-1760000000" (Jso.s "Confirmed Threat")
        (Jso.s "ok") "payload" "reason"
        ((log_human_decision parse0 "ticket-u.lewis-1760000000" (Jso.s "Confirmed Threat")
            (Jso.s "ok") "payload" "reason" []).2)).2) ≠
      ((log_human_decision parse0 "ticket-u.lewis-1760000000" (Jso.s "Confirmed Threat")
          (Jso.s "ok") "payload" "reason" []).2) :=
  ⟨rfl, rfl, fun h => absurd (congrArg List.length h) (by decide)⟩

/-- C8 (amended): when the alert payload cannot be parsed, the row persisted
by `log_false_positive` carries `user_id = null`; no `unknown` sentinel is
substituted into the persisted row (the `unknown_user` sentinel exists only
inside generated ticket ids). -/
theorem log_false_positive_null_user_id
    (parse : String → Option Jso) (ap comment : String) (audit : List AuditRow)
    (h : parse ap = none) :
    ∃ row : AuditRow, (log_false_positive parse ap comment audit).2 = audit ++ [row] ∧
      row.user_id = Jso.null ∧ row.alert_payload = ap ∧
      row.agent_decision = Jso.s "FALSE_POSITIVE" := by
  refine ⟨_, rfl, ?_, ?_, rfl⟩
  · simp [parse_alert_payload_to_row, h]
  · simp [parse_alert_payload_to_row, h]

theorem log_false_positive_null_user_id_witness :
    ∃ row : AuditRow, (log_false_positive parse0 "not json" "benign burst" []).2 = [] ++ [row] ∧
      row.user_id = Jso.null ∧ row.alert_payload = "not json" ∧
      row.agent_decision = Jso.s "FALSE_POSITIVE" :=
  log_false_positive_null_user_id parse0 "not json" "benign burst" [] rfl

/-- C8 counterexample: a row persisted by `log_false_positive` for an
unparseable alert has `user_id = null`, not the `unknown` sentinel. -/
theorem persisted_user_id_null_cex :
    ((log_false_positive parse0 "not json" "benign burst" []).2.map (fun r => r.user_id))
        = [Jso.null] ∧
    Jso.null ≠ Jso.s "unknown" :=
  ⟨rfl, fun h => Jso.noConfusion h⟩

/-- Session record held by the proxied ADK session service. -/
structure SessionRec where
  id : String
  createTime : Nat
  state : List (String × String)

/-- One stored session together with its `(app, user)` key. -/
structure SessionEntry where
  app : String
  user : String
  sess : SessionRec

/-- Sessions of the proxied service belonging to `(app, user)`, in backend
storage order. -/
def sessionsFor (svc : List SessionEntry) (app user : String) : List SessionRec :=
  (svc.filter (fun e => e.app == app && e.user == user)).map (fun e => e.sess)

/-- Listing order of the proxied service: most recently created first. -/
def timeDesc (a b : SessionRec) : Prop :=
  b.createTime ≤ a.createTime

instance : DecidableRel timeDesc :=
  fun a b => Nat.decLe b.createTime a.createTime

instance : IsTotal SessionRec timeDesc :=
  ⟨fun a b => Nat.le_total b.createTime a.createTime⟩

instance : IsTrans SessionRec timeDesc :=
  ⟨fun _ _ _ h1 h2 => Nat.le_trans h2 h1⟩

/-- Modelled from the spec: the proxied session service (for example
`VertexAiSessionService`) is external to this repository; per the
specification, `list_sessions` returns the sessions of `(app, user)` with the
most recently created one first. -/
def list_sessions (svc : List SessionEntry) (app user : String) : List SessionRec :=
  List.insertionSort timeDesc (sessionsFor svc app user)

/-- Modelled from the spec: the proxied `get_session` retrieves the session
with the given id among the sessions of `(app, user)`. -/
def backend_get_session (svc : List SessionEntry) (app user sid : String) : Option SessionRec :=
  (sessionsFor svc app user).find? (fun s => s.id == sid)

/-- Modelled from the spec: the proxied `create_session` stores a brand-new
session for `(app, user)`; passing no state yields an empty initial state.
`newId` and `now` stand for the backend-assigned id and creation time. -/
def backend_create_session (svc : List SessionEntry) (app user : String)
    (state : Option (List (String × String))) (newId : String) (now : Nat) :
    SessionRec × List SessionEntry :=
  let s : SessionRec := { id := newId, createTime := now, state := state.getD [] }
  (s, svc ++ [{ app := app, user := user, sess := s }])

/-- Embedding of `ImplicitSessionService.get_session`
(implicit_session_service.py, lines 27-64): list the sessions of
`(app, user)`; when some exist, fetch `sessions[0]` (the most recent one)
from the proxied service and create nothing; when none exist, create a
brand-new session with `state=None` and return it.  The `session_id`
argument of the wrapper does not participate in the lookup. -/
def implicit_get_session (svc : List SessionEntry) (app user _session_id : String)
    (newId : String) (now : Nat) : Option SessionRec × List SessionEntry :=
  match list_sessions svc app user with
  | s0 :: _ => (backend_get_session svc app user s0.id, svc)
  | [] =>
      let res := backend_create_session svc app user none newId now
      (some res.1, res.2)

theorem find_by_id_of_nodup :
    ∀ (l : List SessionRec), (l.map SessionRec.id).Nodup →
      ∀ s ∈ l, l.find? (fun x => x.id == s.id) = some s := by
  intro l
  induction l with
  | nil =>
      intro _ s hs
      simp at hs
  | cons a t ih =>
      intro hnd s hs
      rw [List.map_cons, List.nodup_cons] at hnd
      rcases List.mem_cons.mp hs with rfl | hst
      · simp [List.find?]
      · have hne : (a.id == s.id) = false := by
          rw [beq_eq_false_iff_ne]
          intro hcontra
          exact hnd.1 (hcontra ▸ List.mem_map_of_mem SessionRec.id hst)
        simp only [List.find?, hne]
        exact ih hnd.2 s hst

theorem sorted_head_max (l : List SessionRec) (s0 : SessionRec) (rest : List SessionRec)
    (h : List.insertionSort timeDesc l = s0 :: rest) :
    s0 ∈ l ∧ ∀ x ∈ l, x.createTime ≤ s0.createTime := by
  have hperm := List.perm_insertionSort timeDesc l
  have hsorted := List.sorted_insertionSort timeDesc l
  rw [h] at hperm hsorted
  constructor
  · exact hperm.mem_iff.mp (List.mem_cons_self s0 rest)
  · intro x hx
    have hx2 : x ∈ s0 :: rest := hperm.mem_iff.mpr hx
    rcases List.mem_cons.mp hx2 with rfl | hx3
    · exact Nat.le_refl _
    · exact List.rel_of_sorted_cons hsorted x hx3

/-- C9: session resolution is get-or-create and sticky — when sessions exist
for `(app, user)` it returns the most recently created one and creates
nothing; when none exist it creates a single new session with empty initial
state and returns it, so a stateless caller may invoke it repeatedly. -/
theorem implicit_get_session_sticky_get_or_create
    (svc : List SessionEntry) (app user sid newId : String) (now : Nat)
    (hids : ((sessionsFor svc app user).map SessionRec.id).Nodup) :
    (sessionsFor svc app user = [] →
      implicit_get_session svc app user sid newId now =
        (some { id := newId, createTime := now, state := [] },
         svc ++ [{ app := app, user := user,
                   sess := { id := newId, createTime := now, state := [] } }])) ∧
    (sessionsFor svc app user ≠ [] →
      ∃ s : SessionRec,
        implicit_get_session svc app user sid newId now = (some s, svc) ∧
        s ∈ sessionsFor svc app user ∧
        ∀ x ∈ sessionsFor svc app user, x.createTime ≤ s.createTime) := by
  constructor
  · intro hemp
    unfold implicit_get_session list_sessions backend_create_session
    rw [hemp]
    rfl
  · intro hne
    have hsortne : list_sessions svc app user ≠ [] := by
      unfold list_sessions
      intro hcontra
      have hperm := List.perm_insertionSort timeDesc (sessionsFor svc app user)
      rw [hcontra] at hperm
      exact hne hperm.symm.eq_nil
    obtain ⟨s0, rest, hls⟩ := List.exists_cons_of_ne_nil hsortne
    have hmax := sorted_head_max (sessionsFor svc app user) s0 rest hls
    refine ⟨s0, ?_, hmax.1, hmax.2⟩
    unfold implicit_get_session
    rw [show list_sessions svc app user = s0 :: rest from hls]
    change (List.find? (fun s => s.id == s0.id) (sessionsFor svc app user), svc) = (some s0, svc)
    rw [find_by_id_of_nodup (sessionsFor svc app user) hids s0 hmax.1]

/-- Backend state for the concrete session-resolution witness: two sessions
of the same user, created at times 10 and 20. -/
def svcW : List SessionEntry :=
  [{ app := "app1", user := "alice", sess := { id := "s1", createTime := 10, state := [] } },
   { app := "app1", user := "alice", sess := { id := "s2", createTime := 20, state := [] } }]

theorem implicit_get_session_sticky_witness :
    (sessionsFor svcW "app1" "alice" = [] →
      implicit_get_session svcW "app1" "alice" "sid0" "new1" 30 =
        (some { id := "new1", createTime := 30, state := [] },
         svcW ++ [{ app := "app1", user := "alice",
                    sess := { id := "new1", createTime := 30, state := [] } }])) ∧
    (sessionsFor svcW "app1" "alice" ≠ [] →
      ∃ s : SessionRec,
        implicit_get_session svcW "app1" "alice" "sid0" "new1" 30 = (some s, svcW) ∧
        s ∈ sessionsFor svcW "app1" "alice" ∧
        ∀ x ∈ sessionsFor svcW "app1" "alice", x.createTime ≤ s.createTime) :=
  implicit_get_session_sticky_get_or_create svcW "app1" "alice" "sid0" "new1" 30 (by decide)

/-- Opening-brace character that `stream_query` searches for. -/
def lbrace : Char := '\x7b'

/-- Embedding of the payload normalization in `CymbalCyberAdapter.stream_query`
(remote_adapter.py, lines 54-62): `raw_text.find` of the opening brace and
slicing from that index when found; when no brace is present the raw text is
passed through unchanged.  The embedding is a pure function, so the input
text is not mutated. -/
def stream_query_clean_payload (raw : String) : String :=
  if raw.data.any (fun c => c == lbrace) then
    String.mk (raw.data.dropWhile (fun c => c != lbrace))
  else raw

theorem mem_takeWhile_pred (p : Char → Bool) (l : List Char) (c : Char)
    (h : c ∈ l.takeWhile p) : p c = true := by
  induction l with
  | nil => simp [List.takeWhile_nil] at h
  | cons a t ih =>
      by_cases ha : p a
      · rw [List.takeWhile_cons_of_pos ha] at h
        rcases List.mem_cons.mp h with rfl | h2
        · exact ha
        · exact ih h2
      · rw [List.takeWhile_cons_of_neg ha] at h
        simp at h

theorem head_dropWhile_eq_self (l : List Char) (b : Char) (h : b ∈ l) :
    (l.dropWhile (fun c => c != b)).head? = some b := by
  induction l with
  | nil => simp at h
  | cons a t ih =>
      by_cases hab : a = b
      · subst hab
        simp [List.dropWhile_cons]
      · have hne : (a != b) = true := by simp [hab]
        rw [List.dropWhile_cons, if_pos hne]
        rcases List.mem_cons.mp h with rfl | h2
        · exact absurd rfl hab
        · exact ih h2

/-- C10: for every inbound raw text the normalizer yields the suffix of the
text starting at the first opening brace when one is present — the text
decomposes as a brace-free prefix followed by the canonical payload, which
starts with the brace — and yields the raw text unchanged when no brace
occurs; the operation is pure, so the input is unaffected. -/
theorem stream_query_first_brace_suffix (raw : String) :
    (lbrace ∈ raw.data →
      raw.data = raw.data.takeWhile (fun c => c != lbrace) ++
        (stream_query_clean_payload raw).data ∧
      lbrace ∉ raw.data.takeWhile (fun c => c != lbrace) ∧
      (stream_query_clean_payload raw).data.head? = some lbrace) ∧
    (lbrace ∉ raw.data → stream_query_clean_payload raw = raw) := by
  constructor
  · intro hmem
    have hany : raw.data.any (fun c => c == lbrace) = true := by
      rw [List.any_eq_true]
      exact ⟨lbrace, hmem, by simp⟩
    unfold stream_query_clean_payload
    rw [if_pos hany]
    refine ⟨?_, ?_, ?_⟩
    · exact (List.takeWhile_append_dropWhile _ _).symm
    · intro hcontra
      have := mem_takeWhile_pred (fun c => c != lbrace) raw.data lbrace hcontra
      simp at this
    · exact head_dropWhile_eq_self raw.data lbrace hmem
  · intro hnot
    have hany : raw.data.any (fun c => c == lbrace) = false := by
      cases hb : raw.data.any (fun c => c == lbrace) with
      | false => rfl
      | true =>
          obtain ⟨c, hc, hcb⟩ := List.any_eq_true.mp hb
          rw [beq_iff_eq] at hcb
          subst hcb
          exact absurd hc hnot
    simp [stream_query_clean_payload, hany]

theorem stream_query_first_brace_suffix_witness :
    (("ab\x7bcd" : String).data =
        ("ab\x7bcd" : String).data.takeWhile (fun c => c != lbrace) ++
          (stream_query_clean_payload "ab\x7bcd").data ∧
      lbrace ∉ ("ab\x7bcd" : String).data.takeWhile (fun c => c != lbrace) ∧
      (stream_query_clean_payload "ab\x7bcd").data.head? = some lbrace) ∧
    stream_query_clean_payload "xyz" = "xyz" :=
  ⟨(stream_query_first_brace_suffix "ab\x7bcd").1 (by decide),
   (stream_query_first_brace_suffix "xyz").2 (by decide)⟩
